import Mathlib

/-!
# github-move: the `generate` command and the Kubernetes Secret adapter

A shallow embedding of `src/pkg/kube/secret.go` (the Secret template: `NewSecretTemplate`,
`SecretTemplate.Replace`, `secretReplacement`) and of `src/cmd/generate.go` (the `RunE` body of
the `generate` command), followed by theorems about them.

Conventions of the embedding.

* A Go `interface{}` value is a `Value`: one constructor per dynamic type that can occur in a
  decoded manifest or in Vault data.
* A Go `map[string]interface{}` is an association list `GoMap`; `mapGet` is the Go index
  expression and `mapSet` the Go assignment `m[k] = v`.
* A Go `[]byte` is `Option (List Nat)`: `none` is the nil slice, `some bs` a slice holding the
  bytes `bs`.
* A Go `error` is `Option GoError`: `none` is `nil`.
* Code of the repository that is not among the sources (`genericReplacement`, `replaceInner`,
  `listYamlFiles`, `kube.NewTemplate`, ...) is a parameter of the function that calls it.
* Calls whose only effect is on the outside world are recorded in a trace of `Event`s, so that
  "is called" and "is written" are statements about the trace.
* `SecretTemplate.ToYAML` only chains the JSON and Kubernetes encoders, which are external; in
  `RunE` it is the collaborator `ToYAML` of the template.
-/

namespace GithubMove

/-! ## Data model -/

/-- A Go `interface{}` value as it occurs in decoded manifests and in Vault data. -/
inductive Value where
  | null
  | str (s : String)
  | int (n : Int)
  | bool (b : Bool)
  | int64 (n : Int)
  | float64 (bits : Nat)
  | bytes (b : Option (List Nat))
  | map (m : List (String × Value))
  | slice (xs : List Value)

/-- A Go `map[string]interface{}`. -/
abbrev GoMap := List (String × Value)

/-- A non-nil Go `error`, identified with its message. -/
structure GoError where
  msg : String
  deriving DecidableEq, Repr

/-- The Go index expression `m[k]` with the comma-ok result: the value stored under `k`. -/
def mapGet : GoMap → String → Option Value
  | [], _ => none
  | (k', v) :: rest, k => if k' = k then some v else mapGet rest k

/-- The Go assignment `m[k] = v`. -/
def mapSet : GoMap → String → Value → GoMap
  | [], k, v => [(k, v)]
  | (k', v') :: rest, k, v => if k' = k then (k, v) :: rest else (k', v') :: mapSet rest k v

/-- The Go type assertion `x.(map[string]interface{})` with the comma-ok result, applied to the
result of an index expression (a missing key gives the nil interface, which is not a map). -/
def asMap : Option Value → Option GoMap
  | some (.map m) => some m
  | _ => none

/-- The Go conversion `[]byte(s)`: the UTF-8 bytes of the string. -/
def bytesOf (s : String) : List Nat :=
  (s.data.flatMap String.utf8EncodeChar).map UInt8.toNat

/-- Go's `strconv.Itoa`: the decimal text of an integer, with a leading `-` when negative. -/
def Itoa (n : Int) : String :=
  if n < 0 then "-" ++ Nat.repr n.natAbs else Nat.repr n.natAbs

/-- Go's `strconv.FormatBool`. -/
def FormatBool (b : Bool) : String :=
  if b then "true" else "false"

/-- The text `fmt` prints for a `[]error` under the verb `%s`: the messages separated by one
space, in square brackets. -/
def fmtErrors (errs : List GoError) : String :=
  "[" ++ " ".intercalate (errs.map GoError.msg) ++ "]"

/-- A replacement function as `replaceInner` receives it:
`func(key, value string, vaultData map[string]interface{}) (interface{}, []error)`. -/
abbrev Replacer := String → String → GoMap → Value × List GoError

/-- The interface of `replaceInner(r *Resource, node *map[string]interface{}, replacerFunc)`:
it reads `r.vaultData`, rewrites `node` in place and appends the errors it meets to
`r.replacementErrors`. The function gets the Vault data, the node and the replacement function,
and gives the rewritten node with the errors to append. -/
abbrev Walker := GoMap → GoMap → Replacer → GoMap × List GoError

/-- The struct `Resource` embedded in `SecretTemplate`. -/
@[ext]
structure Resource where
  templateData : GoMap
  replacementErrors : List GoError
  vaultData : GoMap

/-! ## `src/pkg/kube/secret.go` -/

/-- The constructor `NewSecretTemplate`: reads the path prefix from the environment, fetches
the secrets and builds the template; `getenv` is `os.Getenv` and `GetSecrets` the method of the
`VaultType`. -/
def NewSecretTemplate (getenv : String → String) (GetSecrets : String → Except GoError GoMap)
    (template : GoMap) : Except GoError Resource :=
  let path := getenv "VAULT_PATH_PREFIX"
  match GetSecrets path with
  | .error err => .error err
  | .ok data => .ok { templateData := template, replacementErrors := [], vaultData := data }

/-- The function `secretReplacement`: ensures the replacements for the Secret data are
`[]byte`. -/
def secretReplacement (genericReplacement : Replacer) (key value : String) (vaultData : GoMap) :
    Value × List GoError :=
  let (res, err) := genericReplacement key value vaultData
  let byteData : Option (List Nat) :=
    match res with
    | .int n => some (bytesOf (Itoa n))
    | .bool b => some (bytesOf (FormatBool b))
    | .str s => some (bytesOf s)
    | _ => none
  (.bytes byteData, err)

/-- One call `replaceInner(&d.Resource, &node, replacerFunc)` on the map stored under `field`:
the rewritten node is visible through `templateData[field]` and the errors are appended. -/
def walkField (replaceInner : Walker) (d : Resource) (field : String) (node : GoMap)
    (replacerFunc : Replacer) : Resource :=
  let (node', errs) := replaceInner d.vaultData node replacerFunc
  { d with templateData := mapSet d.templateData field (.map node'),
           replacementErrors := d.replacementErrors ++ errs }

/-- The second half of `SecretTemplate.Replace`: replace the actual secrets with `[]byte`s. -/
def replaceData (replaceInner : Walker) (genericReplacement : Replacer) (d : Resource) :
    Resource × Option GoError :=
  match asMap (mapGet d.templateData "data") with
  | some data =>
    let d := walkField replaceInner d "data" data (secretReplacement genericReplacement)
    if d.replacementErrors.length ≠ 0 then
      (d, some ⟨"Replace: could not replace all placeholders in SecretTemplate data: "
        ++ fmtErrors d.replacementErrors⟩)
    else (d, none)
  | none => (d, none)

/-- The method `SecretTemplate.Replace`: replaces the placeholders of `metadata` normally and
those of `data` with `[]byte`s; gives the template after the call and the returned error. -/
def Replace (replaceInner : Walker) (genericReplacement : Replacer) (d : Resource) :
    Resource × Option GoError :=
  match asMap (mapGet d.templateData "metadata") with
  | some metadata =>
    let d := walkField replaceInner d "metadata" metadata genericReplacement
    if d.replacementErrors.length ≠ 0 then
      (d, some ⟨"Replace: could not replace all placeholders in SecretTemplate metadata: "
        ++ fmtErrors d.replacementErrors⟩)
    else replaceData replaceInner genericReplacement d
  | none => replaceData replaceInner genericReplacement d

/-! ## Collaborators of the Secret adapter that are not among the sources -/

mutual
/-- Modelled from the spec: the Tree Walker (spec 4.4) on the entries of a map node; part of
`replaceInner`, which is absent from `src/`. Recurse into each value, preserving keys. -/
def replaceFields (vaultData : GoMap) (replacerFunc : Replacer) :
    List (String × Value) → List (String × Value) × List GoError
  | [] => ([], [])
  | (k, v) :: rest =>
    let r := replaceLeaf vaultData replacerFunc k v
    let rs := replaceFields vaultData replacerFunc rest
    ((k, r.1) :: rs.1, r.2 ++ rs.2)
/-- Modelled from the spec: the Tree Walker (spec 4.4) on one value found under `key`; part of
`replaceInner`, which is absent from `src/`. Scalar string leaves are delegated to the
replacement function, maps and sequences are walked, every other leaf is kept. -/
def replaceLeaf (vaultData : GoMap) (replacerFunc : Replacer) (key : String) :
    Value → Value × List GoError
  | .str s => replacerFunc key s vaultData
  | .map m => let r := replaceFields vaultData replacerFunc m; (.map r.1, r.2)
  | .slice xs => let r := replaceElems vaultData replacerFunc key xs; (.slice r.1, r.2)
  | v => (v, [])
/-- Modelled from the spec: the Tree Walker (spec 4.4) on the elements of a sequence node found
under `key`; part of `replaceInner`, which is absent from `src/`. Recurse into each element,
preserving order. -/
def replaceElems (vaultData : GoMap) (replacerFunc : Replacer) (key : String) :
    List Value → List Value × List GoError
  | [] => ([], [])
  | v :: rest =>
    let r := replaceLeaf vaultData replacerFunc key v
    let rs := replaceElems vaultData replacerFunc key rest
    (r.1 :: rs.1, r.2 ++ rs.2)
end

/-- Modelled from the spec: `replaceInner`, the Tree Walker (spec 4.4), is absent from `src/`.
It visits every node of the subtree, never aborts, and accumulates the errors of all leaves in
visiting order. -/
def replaceInner : Walker := fun vaultData node replacerFunc =>
  replaceFields vaultData replacerFunc node

/-- Modelled from the spec: `genericReplacement`, the Placeholder Resolver (spec 4.3), is absent
from `src/`. This is its whole-value case: a scalar that is exactly one marker `<key>` resolves
to the value stored under `key` with its native type (item 4), and a key that is absent from the
secret data yields an error for that field (item 5). A scalar that is not a single whole-value
marker is returned as it is; the theorems below are stated for an arbitrary replacement function
and use this one only to supply concrete inputs. -/
def wholeValueReplacement : Replacer := fun key value vaultData =>
  match value.data with
  | '<' :: rest =>
    if rest.getLast? = some '>' then
      let name := String.mk rest.dropLast
      match mapGet vaultData name with
      | some v => (v, [])
      | none => (.str value,
          [⟨"missing Vault value for placeholder " ++ name ++ " in string " ++ key ++ ": "
            ++ value⟩])
    else (.str value, [])
  | _ => (.str value, [])

/-! ## `src/cmd/generate.go` -/

/-- The calls of `RunE` that act on the outside world, in the order in which they are made.
The per-manifest events carry the manifest they were made for; `write` carries the text handed
to `fmt.Fprintf`. -/
inductive Event where
  | listYamlFiles (path : String)
  | readFilesAsManifests (files : List String)
  | setConfig
  | configNew
  | checkExistingToken
  | login
  | newTemplate (manifest : GoMap)
  | replace (manifest : GoMap)
  | toYAML (manifest : GoMap)
  | write (manifest : GoMap) (text : String)

/-- The collaborators of `RunE`, none of which is among the sources. `Config` is the value
built by `config.New` (it holds the backend, the Vault client and the path prefix) and `Tmpl`
the `kube.Template` built by `kube.NewTemplate`. -/
structure Env (Config Tmpl : Type) where
  /-- The function `listYamlFiles(path)`: the files found and the error. -/
  listYamlFiles : String → List String × Option GoError
  /-- The function `readFilesAsManifests(files)`: the manifests read and the errors. -/
  readFilesAsManifests : List String → List GoMap × List GoError
  /-- The function `setConfig(secretName, configPath, viper)`. -/
  setConfig : String → String → Option GoError
  /-- The function `config.New(viper, utils.DefaultHttpClient())`. -/
  configNew : Except GoError Config
  /-- The function `utils.CheckExistingToken(config.VaultClient)`. -/
  CheckExistingToken : Config → Option GoError
  /-- The method `backend.Login()`. -/
  Login : Config → Option GoError
  /-- The function `kube.NewTemplate(manifest, backend, config.PathPrefix)`. -/
  NewTemplate : GoMap → Config → Except GoError Tmpl
  /-- The method `template.Replace()`: the template after the call and the error. -/
  Replace : Tmpl → Tmpl × Option GoError
  /-- The method `template.ToYAML()`. -/
  ToYAML : Tmpl → Except GoError String

/-- What a run has done so far: the text written to `cmd.OutOrStdout()` and the calls made. -/
structure RunState where
  out : String
  trace : List Event

/-- Records one call. -/
def RunState.log (s : RunState) (e : Event) : RunState :=
  { s with trace := s.trace ++ [e] }

/-- The call `fmt.Fprintf(cmd.OutOrStdout(), "%s---\n", output)` made for `manifest`. -/
def RunState.fprintf (s : RunState) (manifest : GoMap) (output : String) : RunState :=
  { out := s.out ++ (output ++ "---\n"),
    trace := s.trace ++ [Event.write manifest (output ++ "---\n")] }

/-- How a call of `RunE` ends: it returns an error value (`none` is `nil`), or the index
expression `args[0]` panics. -/
inductive Outcome where
  | returned (err : Option GoError)
  | panicked
  deriving DecidableEq

/-- The `Args` validator of the command. -/
def Args (args : List String) : Option GoError :=
  if args.length < 1 then some ⟨"<path> argument required to generate manifests"⟩ else none

/-- The loop `for _, manifest := range manifests` of `RunE`; gives the state when the loop is
left and the error returned from inside it (`none` when the loop runs to its end). -/
def processManifests {Config Tmpl : Type} (env : Env Config Tmpl) (config : Config) :
    List GoMap → RunState → RunState × Option GoError
  | [], s => (s, none)
  | manifest :: rest, s =>
    -- skip empty manifests
    if manifest.length = 0 then processManifests env config rest s
    else
      let s := s.log (.newTemplate manifest)
      match env.NewTemplate manifest config with
      | .error err => (s, some err)
      | .ok template =>
        let s := s.log (.replace manifest)
        match env.Replace template with
        | (_, some err) => (s, some err)
        | (template, none) =>
          let s := s.log (.toYAML manifest)
          match env.ToYAML template with
          | .error err => (s, some err)
          | .ok output => processManifests env config rest (s.fprintf manifest output)

/-- The body `RunE` of the `generate` command; `secretName` and `configPath` are the values of
the flags. Gives the text written, the calls made and how the call ended. -/
def RunE {Config Tmpl : Type} (env : Env Config Tmpl) (secretName configPath : String)
    (args : List String) : RunState × Outcome :=
  let s : RunState := { out := "", trace := [] }
  match args with
  | [] => (s, .panicked)
  | path :: _ =>
    let s := s.log (.listYamlFiles path)
    let (files, err) := env.listYamlFiles path
    if files.length < 1 then
      (s, .returned (some ⟨"no YAML files were found in " ++ path⟩))
    else
    match err with
    | some err => (s, .returned (some err))
    | none =>
      let s := s.log (.readFilesAsManifests files)
      let (manifests, errs) := env.readFilesAsManifests files
      if errs.length ≠ 0 then
        (s, .returned (some ⟨"could not read YAML files: " ++ fmtErrors errs⟩))
      else
      let s := s.log .setConfig
      match env.setConfig secretName configPath with
      | some err => (s, .returned (some err))
      | none =>
        let s := s.log .configNew
        match env.configNew with
        | .error err => (s, .returned (some err))
        | .ok config =>
          let s := s.log .checkExistingToken
          let (s, err) :=
            match env.CheckExistingToken config with
            | some _ => (s.log .login, env.Login config)
            | none => (s, none)
          match err with
          | some err => (s, .returned (some err))
          | none =>
            let (s, err) := processManifests env config manifests s
            (s, .returned err)

/-! ## Notions used to state the claims on `RunE` -/

/-- The three steps succeed for `manifest`: `NewTemplate` builds a template, `Replace` returns
nil on it and `ToYAML` gives `output` for the replaced template. -/
def Succeeds {Config Tmpl : Type} (env : Env Config Tmpl) (config : Config) (manifest : GoMap)
    (output : String) : Prop :=
  ∃ t, env.NewTemplate manifest config = .ok t ∧ (env.Replace t).2 = none ∧
    env.ToYAML (env.Replace t).1 = .ok output

/-- The first of the three steps that fails for `manifest` fails with `err`, and `calls` are the
calls made for the manifest up to that step. -/
def FailsAfter {Config Tmpl : Type} (env : Env Config Tmpl) (config : Config) (manifest : GoMap)
    (err : GoError) (calls : List Event) : Prop :=
  (calls = [.newTemplate manifest] ∧ env.NewTemplate manifest config = .error err) ∨
  (calls = [.newTemplate manifest, .replace manifest] ∧
    ∃ t, env.NewTemplate manifest config = .ok t ∧ (env.Replace t).2 = some err) ∨
  (calls = [.newTemplate manifest, .replace manifest, .toYAML manifest] ∧
    ∃ t, env.NewTemplate manifest config = .ok t ∧ (env.Replace t).2 = none ∧
      env.ToYAML (env.Replace t).1 = .error err)

/-- One of `NewTemplate`, `Replace`, `ToYAML` fails for `manifest`, with `err`. -/
def Fails {Config Tmpl : Type} (env : Env Config Tmpl) (config : Config) (manifest : GoMap)
    (err : GoError) : Prop :=
  ∃ calls, FailsAfter env config manifest err calls

/-- The calls and the write made for a manifest for which the three steps succeed. -/
def emitted (manifest : GoMap) (output : String) : List Event :=
  [.newTemplate manifest, .replace manifest, .toYAML manifest,
   .write manifest (output ++ "---\n")]

/-- The run reaches the session check: a path is given, `listYamlFiles` gives at least one
file and no error, `readFilesAsManifests` gives `manifests` and no error, `setConfig` succeeds
and `config.New` gives `config`. -/
def ReachesSessionCheck {Config Tmpl : Type} (env : Env Config Tmpl)
    (secretName configPath : String) (args : List String) (path : String) (files : List String)
    (config : Config) (manifests : List GoMap) : Prop :=
  args.head? = some path ∧ env.listYamlFiles path = (files, none) ∧ 1 ≤ files.length ∧
  env.readFilesAsManifests files = (manifests, []) ∧
  env.setConfig secretName configPath = none ∧ env.configNew = .ok config

/-- The calls made before the session check is over, when the existing token is valid. -/
def sessionCalls (path : String) (files : List String) : List Event :=
  [.listYamlFiles path, .readFilesAsManifests files, .setConfig, .configNew,
   .checkExistingToken]

/-- The texts of the writes of a trace, in order. -/
def writes : List Event → List String
  | [] => []
  | .write _ text :: rest => text :: writes rest
  | _ :: rest => writes rest

/-- Every write of the trace comes right after the three calls `NewTemplate`, `Replace` and
`ToYAML` for the same manifest. -/
def WriteGuarded (trace : List Event) : Prop :=
  ∀ before manifest text after, trace = before ++ Event.write manifest text :: after →
    ∃ earlier, before = earlier ++
      [Event.newTemplate manifest, Event.replace manifest, Event.toYAML manifest]

/-- The concatenation of a list of texts, in order. -/
def concat : List String → String
  | [] => ""
  | x :: rest => x ++ concat rest

/-- The text the loop writes for a list of manifests that all succeed, `yaml` giving the
`ToYAML` output of each: over the non-empty manifests only, in order, the output followed by
the separator line. -/
def rendered (yaml : GoMap → String) (manifests : List GoMap) : String :=
  concat ((manifests.filter (fun m => m.length ≠ 0)).map (fun m => yaml m ++ "---\n"))

/-- The calls and writes the loop makes for a list of manifests that all succeed, `yaml`
giving the `ToYAML` output of each: nothing for an empty manifest, and for a non-empty one the
three calls and the write, in the order of the list. -/
def emittedAll (yaml : GoMap → String) : List GoMap → List Event
  | [] => []
  | m :: rest =>
    if m.length = 0 then emittedAll yaml rest else emitted m (yaml m) ++ emittedAll yaml rest

/-- The calls made when the session check is over and the loop is entered: those up to the
token check, and the login when the token check gave an error. -/
def sessionTrace (path : String) (files : List String) (token : Option GoError) : List Event :=
  sessionCalls path files ++
    match token with
    | none => []
    | some _ => [.login]

/-- The call is made for one manifest (`NewTemplate`, `Replace`, `ToYAML`, or the write). -/
def Event.perManifest : Event → Bool
  | .newTemplate _ => true
  | .replace _ => true
  | .toYAML _ => true
  | .write _ _ => true
  | _ => false

/-- What holds of the run state all along the loop run with `config`: the text written is
the concatenation of the writes of the trace; every write comes right after its three calls;
a write is made only for a non-empty manifest for which the three steps succeed, and its text
is the `ToYAML` output followed by the separator line; `ToYAML` is called only after
`NewTemplate` and `Replace` succeeded; a template is built only for a non-empty manifest. -/
def LoopInv {Config Tmpl : Type} (env : Env Config Tmpl) (config : Config) (s : RunState) :
    Prop :=
  s.out = concat (writes s.trace) ∧
  WriteGuarded s.trace ∧
  (∀ m text, Event.write m text ∈ s.trace →
    ∃ output, text = output ++ "---\n" ∧ m.length ≠ 0 ∧ Succeeds env config m output) ∧
  (∀ m, Event.toYAML m ∈ s.trace →
    ∃ t, env.NewTemplate m config = .ok t ∧ (env.Replace t).2 = none) ∧
  (∀ m, Event.newTemplate m ∈ s.trace → m.length ≠ 0)

/-! ## Concrete inputs -/

/-- A Secret template with an unresolvable placeholder in `metadata` and, in `data`, one
placeholder that resolves and one that does not. -/
def brokenSecret : Resource :=
  { templateData :=
      [("kind", .str "Secret"),
       ("metadata", .map [("name", .str "<missing>")]),
       ("data", .map [("user", .str "<username>"), ("password", .str "<absent>")])],
    replacementErrors := [],
    vaultData := [("username", .str "admin"), ("enabled", .bool true)] }

/-- A Secret template whose placeholders all resolve. -/
def goodSecret : Resource :=
  { templateData :=
      [("kind", .str "Secret"),
       ("metadata", .map [("name", .str "<username>")]),
       ("data", .map [("flag", .str "<enabled>")])],
    replacementErrors := [],
    vaultData := [("username", .str "admin"), ("enabled", .bool true)] }

/-- The Vault data of the concrete environment. -/
def demoVault : GoMap := [("username", .str "admin"), ("enabled", .bool true)]

/-- A concrete environment to run `RunE` in. Listing gives `listing`, reading gives
`manifests`, configuration succeeds, the token check gives `token` and the login `login`.
Templates are Secret templates over `demoVault`, replaced by `Replace` with the walker and the
replacement function above; `ToYAML` prints the `kind` line of a template that has one. -/
def demoEnv (listing : List String × Option GoError) (manifests : List GoMap)
    (token login : Option GoError) : Env Unit Resource :=
  { listYamlFiles := fun _ => listing,
    readFilesAsManifests := fun _ => (manifests, []),
    setConfig := fun _ _ => none,
    configNew := .ok (),
    CheckExistingToken := fun _ => token,
    Login := fun _ => login,
    NewTemplate := fun manifest _ =>
      NewSecretTemplate (fun _ => "secret/app") (fun _ => .ok demoVault) manifest,
    Replace := Replace replaceInner wholeValueReplacement,
    ToYAML := fun t =>
      match mapGet t.templateData "kind" with
      | some (.str kind) => .ok ("kind: " ++ kind ++ "\n")
      | _ => .error ⟨"ToYAML: could not convert replaced template into Secret"⟩ }

/-! ## Lemmas on maps -/

theorem mapGet_mapSet_self (m : GoMap) (k : String) (v : Value) :
    mapGet (mapSet m k v) k = some v := by
  induction m with
  | nil => simp [mapSet, mapGet]
  | cons p rest ih =>
    obtain ⟨k', v'⟩ := p
    by_cases h : k' = k
    · simp [mapSet, mapGet, h]
    · simp [mapSet, mapGet, h, ih]

theorem mapGet_mapSet_ne (m : GoMap) (k k' : String) (v : Value) (h : k' ≠ k) :
    mapGet (mapSet m k v) k' = mapGet m k' := by
  induction m with
  | nil => simp [mapSet, mapGet, Ne.symm h]
  | cons p rest ih =>
    obtain ⟨k0, v0⟩ := p
    by_cases h0 : k0 = k
    · subst h0
      simp [mapSet, mapGet, Ne.symm h]
    · by_cases h1 : k0 = k'
      · subst h1
        simp [mapSet, mapGet, h0]
      · simp [mapSet, mapGet, h0, h1, ih]

/-! ## Lemmas on `Replace` -/

theorem walkField_vaultData (walk : Walker) (d : Resource) (field : String) (node : GoMap)
    (f : Replacer) : (walkField walk d field node f).vaultData = d.vaultData := rfl

theorem walkField_templateData (walk : Walker) (d : Resource) (field : String) (node : GoMap)
    (f : Replacer) :
    (walkField walk d field node f).templateData
      = mapSet d.templateData field (.map (walk d.vaultData node f).1) := rfl

theorem walkField_replacementErrors (walk : Walker) (d : Resource) (field : String)
    (node : GoMap) (f : Replacer) :
    (walkField walk d field node f).replacementErrors
      = d.replacementErrors ++ (walk d.vaultData node f).2 := rfl

theorem length_ne_zero_iff {α : Type} (l : List α) : l.length ≠ 0 ↔ l ≠ [] := by
  cases l <;> simp

/-- The second half of `Replace` on a template whose `data` is a map. -/
theorem replaceData_of_map (walk : Walker) (g : Replacer) (d : Resource) (data : GoMap)
    (hd : asMap (mapGet d.templateData "data") = some data) :
    replaceData walk g d =
      (walkField walk d "data" data (secretReplacement g),
        if d.replacementErrors ++ (walk d.vaultData data (secretReplacement g)).2 = [] then none
        else some ⟨"Replace: could not replace all placeholders in SecretTemplate data: "
          ++ fmtErrors (d.replacementErrors ++ (walk d.vaultData data (secretReplacement g)).2)⟩)
    := by
  unfold replaceData
  rw [hd]
  by_cases h : d.replacementErrors ++ (walk d.vaultData data (secretReplacement g)).2 = []
  · simp only [walkField_replacementErrors, h, List.length_nil, ne_eq, not_true_eq_false,
      if_false, if_true]
  · have h' : (d.replacementErrors ++ (walk d.vaultData data (secretReplacement g)).2).length ≠ 0 :=
      (length_ne_zero_iff _).2 h
    simp only [walkField_replacementErrors, h, h', ne_eq, not_false_eq_true, if_true, if_false]

/-- The second half of `Replace` on a template whose `data` is not a map. -/
theorem replaceData_of_not_map (walk : Walker) (g : Replacer) (d : Resource)
    (hd : asMap (mapGet d.templateData "data") = none) :
    replaceData walk g d = (d, none) := by
  unfold replaceData
  rw [hd]

/-- The method `Replace` on a template whose `metadata` is a map. -/
theorem Replace_of_map (walk : Walker) (g : Replacer) (d : Resource) (metadata : GoMap)
    (hm : asMap (mapGet d.templateData "metadata") = some metadata) :
    Replace walk g d =
      if d.replacementErrors ++ (walk d.vaultData metadata g).2 = [] then
        replaceData walk g (walkField walk d "metadata" metadata g)
      else
        (walkField walk d "metadata" metadata g,
          some ⟨"Replace: could not replace all placeholders in SecretTemplate metadata: "
            ++ fmtErrors (d.replacementErrors ++ (walk d.vaultData metadata g).2)⟩) := by
  unfold Replace
  rw [hm]
  by_cases h : d.replacementErrors ++ (walk d.vaultData metadata g).2 = []
  · simp only [walkField_replacementErrors, h, List.length_nil, ne_eq, not_true_eq_false,
      if_false, if_true]
  · have h' : (d.replacementErrors ++ (walk d.vaultData metadata g).2).length ≠ 0 :=
      (length_ne_zero_iff _).2 h
    simp only [walkField_replacementErrors, h, h', ne_eq, not_false_eq_true, if_true, if_false]

/-- The method `Replace` on a template whose `metadata` is not a map. -/
theorem Replace_of_not_map (walk : Walker) (g : Replacer) (d : Resource)
    (hm : asMap (mapGet d.templateData "metadata") = none) :
    Replace walk g d = replaceData walk g d := by
  unfold Replace
  rw [hm]

/-- The walk of `metadata` leaves the `data` entry as it was. -/
theorem walkField_metadata_data (walk : Walker) (g : Replacer) (d : Resource)
    (metadata : GoMap) :
    mapGet (walkField walk d "metadata" metadata g).templateData "data"
      = mapGet d.templateData "data" := by
  rw [walkField_templateData]
  exact mapGet_mapSet_ne _ _ _ _ (by decide)

/-- A value is a map exactly when the type assertion succeeds. -/
theorem asMap_cases (x : Option Value) : asMap x = none ∨ ∃ m, asMap x = some m := by
  cases h : asMap x with
  | none => exact Or.inl rfl
  | some m => exact Or.inr ⟨m, rfl⟩

/-! ## Lemmas on the loop of `RunE` -/

section Loop

variable {Config Tmpl : Type} (env : Env Config Tmpl) (config : Config)

/-- An empty manifest is skipped. -/
theorem processManifests_skip (m : GoMap) (rest : List GoMap) (s : RunState)
    (h : m.length = 0) :
    processManifests env config (m :: rest) s = processManifests env config rest s := by
  simp [processManifests, h]

/-- A manifest for which the three steps succeed is written and the loop goes on. -/
theorem processManifests_emit (m : GoMap) (rest : List GoMap) (s : RunState) (output : String)
    (h : m.length ≠ 0) (hs : Succeeds env config m output) :
    processManifests env config (m :: rest) s
      = processManifests env config rest
          ⟨s.out ++ (output ++ "---\n"), s.trace ++ emitted m output⟩ := by
  obtain ⟨t, h1, h2, h3⟩ := hs
  cases hR : env.Replace t with
  | mk t' e' =>
    rw [hR] at h2 h3
    simp only at h2 h3
    subst h2
    simp [processManifests, h, h1, hR, h3, RunState.log, RunState.fprintf, emitted]

/-- A manifest for which a step fails ends the loop with the error of that step; nothing is
written for it. -/
theorem processManifests_fail (m : GoMap) (rest : List GoMap) (s : RunState) (e : GoError)
    (calls : List Event) (h : m.length ≠ 0) (hf : FailsAfter env config m e calls) :
    processManifests env config (m :: rest) s = (⟨s.out, s.trace ++ calls⟩, some e) := by
  rcases hf with ⟨hc, h1⟩ | ⟨hc, t, h1, h2⟩ | ⟨hc, t, h1, h2, h3⟩
  · subst hc
    simp [processManifests, h, h1, RunState.log]
  · subst hc
    cases hR : env.Replace t with
    | mk t' e' =>
      rw [hR] at h2
      simp only at h2
      subst h2
      simp [processManifests, h, h1, hR, RunState.log]
  · subst hc
    cases hR : env.Replace t with
    | mk t' e' =>
      rw [hR] at h2 h3
      simp only at h2 h3
      subst h2
      simp [processManifests, h, h1, hR, h3, RunState.log]

/-- For every manifest the three steps either succeed or one of them fails. -/
theorem succeeds_or_fails (m : GoMap) :
    (∃ output, Succeeds env config m output) ∨ (∃ e calls, FailsAfter env config m e calls) := by
  cases h1 : env.NewTemplate m config with
  | error e => exact Or.inr ⟨e, _, Or.inl ⟨rfl, h1⟩⟩
  | ok t =>
    cases h2 : (env.Replace t).2 with
    | some e => exact Or.inr ⟨e, _, Or.inr (Or.inl ⟨rfl, t, h1, h2⟩)⟩
    | none =>
      cases h3 : env.ToYAML (env.Replace t).1 with
      | error e => exact Or.inr ⟨e, _, Or.inr (Or.inr ⟨rfl, t, h1, h2, h3⟩)⟩
      | ok output => exact Or.inl ⟨output, t, h1, h2, h3⟩

/-- A manifest cannot both succeed and fail. -/
theorem not_succeeds_of_fails (m : GoMap) (output : String) (e : GoError) (calls : List Event)
    (hs : Succeeds env config m output) (hf : FailsAfter env config m e calls) : False := by
  obtain ⟨t, h1, h2, h3⟩ := hs
  rcases hf with ⟨_, g1⟩ | ⟨_, t', g1, g2⟩ | ⟨_, t', g1, g2, g3⟩
  · rw [h1] at g1
    cases g1
  · rw [h1] at g1
    cases g1
    rw [h2] at g2
    cases g2
  · rw [h1] at g1
    cases g1
    rw [h3] at g3
    cases g3

/-- A property of the run state that every step of the loop keeps holds when the loop is left. -/
theorem processManifests_invariant (P : RunState → Prop)
    (hemit : ∀ (s : RunState) (m : GoMap) (output : String), m.length ≠ 0 →
      Succeeds env config m output → P s →
      P ⟨s.out ++ (output ++ "---\n"), s.trace ++ emitted m output⟩)
    (hfail : ∀ (s : RunState) (m : GoMap) (e : GoError) (calls : List Event), m.length ≠ 0 →
      FailsAfter env config m e calls → P s → P ⟨s.out, s.trace ++ calls⟩) :
    ∀ (ms : List GoMap) (s : RunState), P s → P (processManifests env config ms s).1 := by
  intro ms
  induction ms with
  | nil =>
    intro s hs
    simpa [processManifests] using hs
  | cons m rest ih =>
    intro s hs
    by_cases h : m.length = 0
    · rw [processManifests_skip env config m rest s h]
      exact ih s hs
    · rcases succeeds_or_fails env config m with ⟨output, ho⟩ | ⟨e, calls, hf⟩
      · rw [processManifests_emit env config m rest s output h ho]
        exact ih _ (hemit s m output h ho hs)
      · rw [processManifests_fail env config m rest s e calls h hf]
        exact hfail s m e calls h hf hs

/-- A prefix of manifests that all succeed is written in order, and the loop goes on with the
rest. -/
theorem processManifests_succeeding (yaml : GoMap → String) (pre rest : List GoMap)
    (hpre : ∀ m ∈ pre, m.length ≠ 0 → Succeeds env config m (yaml m)) :
    ∀ s : RunState, ∃ calls,
      processManifests env config (pre ++ rest) s
        = processManifests env config rest ⟨s.out ++ rendered yaml pre, s.trace ++ calls⟩ := by
  induction pre with
  | nil =>
    intro s
    exact ⟨[], by simp [rendered, concat]⟩
  | cons m pre ih =>
    intro s
    have hpre' : ∀ m' ∈ pre, m'.length ≠ 0 → Succeeds env config m' (yaml m') :=
      fun m' hm' => hpre m' (List.mem_cons_of_mem _ hm')
    by_cases h : m.length = 0
    · obtain ⟨calls, hc⟩ := ih hpre' s
      refine ⟨calls, ?_⟩
      rw [List.cons_append, processManifests_skip env config m _ s h, hc]
      simp [rendered, h]
    · obtain ⟨calls, hc⟩ := ih hpre'
        ⟨s.out ++ (yaml m ++ "---\n"), s.trace ++ emitted m (yaml m)⟩
      refine ⟨emitted m (yaml m) ++ calls, ?_⟩
      rw [List.cons_append,
        processManifests_emit env config m _ s (yaml m) h (hpre m (List.mem_cons_self _ _) h), hc]
      simp [rendered, h, concat, String.append_assoc]

end Loop

/-! ## Lemmas on traces -/

theorem concat_append (a b : List String) : concat (a ++ b) = concat a ++ concat b := by
  induction a with
  | nil => simp [concat]
  | cons x rest ih => simp [concat, ih, String.append_assoc]

theorem writes_append (a b : List Event) : writes (a ++ b) = writes a ++ writes b := by
  induction a with
  | nil => simp [writes]
  | cons e rest ih => cases e <;> simp [writes, ih]

theorem writes_of_not_perManifest (tr : List Event) (h : ∀ e ∈ tr, e.perManifest = false) :
    writes tr = [] := by
  induction tr with
  | nil => rfl
  | cons e rest ih =>
    have he := h e (List.mem_cons_self _ _)
    have hr := ih (fun e' he' => h e' (List.mem_cons_of_mem _ he'))
    cases e <;> simp_all [writes, Event.perManifest]

theorem writeGuarded_of_writes_nil (tr : List Event) (h : writes tr = []) : WriteGuarded tr := by
  intro before m text after htr
  rw [htr, writes_append] at h
  simp [writes] at h

theorem writeGuarded_append (a b : List Event) (ha : WriteGuarded a) (hb : WriteGuarded b) :
    WriteGuarded (a ++ b) := by
  intro before m text after h
  rcases List.append_eq_append_iff.1 h with ⟨c, h1, h2⟩ | ⟨c, h1, h2⟩
  · obtain ⟨earlier, he⟩ := hb c m text after h2
    exact ⟨a ++ earlier, by rw [h1, he, List.append_assoc]⟩
  · rcases List.cons_eq_append_iff.1 h2 with ⟨hc, hb'⟩ | ⟨c', hc, _⟩
    · subst hc
      obtain ⟨earlier, he⟩ := hb [] m text after (by simpa using hb')
      simp at he
    · subst hc
      exact ha before m text c' h1

theorem writeGuarded_emitted (m : GoMap) (output : String) : WriteGuarded (emitted m output) := by
  intro before m' text after h
  unfold emitted at h
  rcases List.cons_eq_append_iff.1 h with ⟨_, h0⟩ | ⟨b1, hb1, h1⟩
  · cases h0
  rcases List.cons_eq_append_iff.1 h1 with ⟨_, h0⟩ | ⟨b2, hb2, h2⟩
  · cases h0
  rcases List.cons_eq_append_iff.1 h2 with ⟨_, h0⟩ | ⟨b3, hb3, h3⟩
  · cases h0
  rcases List.cons_eq_append_iff.1 h3 with ⟨hb4, h0⟩ | ⟨b4, _, h4⟩
  · cases h0
    subst hb4 hb3 hb2 hb1
    exact ⟨[], rfl⟩
  · simp at h4

/-- The calls made for a manifest that fails hold no write. -/
theorem writes_of_failsAfter {Config Tmpl : Type} (env : Env Config Tmpl) (config : Config)
    (m : GoMap) (e : GoError) (calls : List Event) (hf : FailsAfter env config m e calls) :
    writes calls = [] := by
  rcases hf with ⟨hc, _⟩ | ⟨hc, _⟩ | ⟨hc, _⟩ <;> subst hc <;> rfl

/-- The loop keeps `LoopInv`. -/
theorem processManifests_loopInv {Config Tmpl : Type} (env : Env Config Tmpl) (config : Config)
    (ms : List GoMap) (s : RunState) (hs : LoopInv env config s) :
    LoopInv env config (processManifests env config ms s).1 := by
  refine processManifests_invariant env config (LoopInv env config) ?_ ?_ ms s hs
  · intro s m output hm hsucc ⟨h1, h2, h3, h4, h5⟩
    refine ⟨?_, ?_, ?_, ?_, ?_⟩
    · simp [writes_append, concat_append, h1, emitted, writes, concat]
    · exact writeGuarded_append _ _ h2 (writeGuarded_emitted m output)
    · intro m' text hmem
      simp only [List.mem_append, emitted, List.mem_cons, List.mem_singleton,
        Event.write.injEq, reduceCtorEq, false_or, List.not_mem_nil, or_false] at hmem
      rcases hmem with hmem | ⟨hm', ht⟩
      · exact h3 m' text hmem
      · subst hm' ht
        exact ⟨output, rfl, hm, hsucc⟩
    · intro m' hmem
      simp only [List.mem_append, emitted, List.mem_cons, List.mem_singleton,
        Event.toYAML.injEq, reduceCtorEq, false_or, List.not_mem_nil, or_false] at hmem
      rcases hmem with hmem | hm'
      · exact h4 m' hmem
      · subst hm'
        obtain ⟨t, g1, g2, _⟩ := hsucc
        exact ⟨t, g1, g2⟩
    · intro m' hmem
      simp only [List.mem_append, emitted, List.mem_cons, List.mem_singleton,
        Event.newTemplate.injEq, reduceCtorEq, false_or, List.not_mem_nil, or_false] at hmem
      rcases hmem with hmem | hm'
      · exact h5 m' hmem
      · subst hm'
        exact hm
  · intro s m e calls hm hf ⟨h1, h2, h3, h4, h5⟩
    have hw := writes_of_failsAfter env config m e calls hf
    refine ⟨?_, ?_, ?_, ?_, ?_⟩
    · simp [writes_append, hw, h1]
    · exact writeGuarded_append _ _ h2 (writeGuarded_of_writes_nil _ hw)
    · intro m' text hmem
      rcases List.mem_append.1 hmem with hmem | hmem
      · exact h3 m' text hmem
      · rcases hf with ⟨hc, _⟩ | ⟨hc, _⟩ | ⟨hc, _⟩ <;> subst hc <;> simp at hmem
    · intro m' hmem
      rcases List.mem_append.1 hmem with hmem | hmem
      · exact h4 m' hmem
      · rcases hf with ⟨hc, _⟩ | ⟨hc, _⟩ | ⟨hc, t, g1, g2, _⟩
        · subst hc; simp at hmem
        · subst hc; simp at hmem
        · subst hc
          simp at hmem
          subst hmem
          exact ⟨t, g1, g2⟩
    · intro m' hmem
      rcases List.mem_append.1 hmem with hmem | hmem
      · exact h5 m' hmem
      · rcases hf with ⟨hc, _⟩ | ⟨hc, _⟩ | ⟨hc, _⟩ <;> subst hc <;> simp at hmem <;>
          (subst hmem; exact hm)

/-- A state that has made no call for a manifest and written nothing satisfies `LoopInv`. -/
theorem loopInv_of_not_perManifest {Config Tmpl : Type} (env : Env Config Tmpl)
    (config : Config) (s : RunState) (hout : s.out = "")
    (h : ∀ e ∈ s.trace, e.perManifest = false) : LoopInv env config s := by
  have hw := writes_of_not_perManifest s.trace h
  refine ⟨by rw [hw, hout]; rfl, writeGuarded_of_writes_nil _ hw, ?_, ?_, ?_⟩
  · intro m text hmem
    have := h _ hmem
    simp [Event.perManifest] at this
  · intro m hmem
    have := h _ hmem
    simp [Event.perManifest] at this
  · intro m hmem
    have := h _ hmem
    simp [Event.perManifest] at this

/-! ## Lemmas on `RunE` -/

section Run

variable {Config Tmpl : Type} (env : Env Config Tmpl) (secretName configPath : String)

/-- A run that reaches the session check: the login is attempted when the token check fails,
its failure ends the run, and otherwise the loop is run. -/
theorem RunE_of_reaches (args : List String) (path : String) (files : List String)
    (config : Config) (manifests : List GoMap)
    (h : ReachesSessionCheck env secretName configPath args path files config manifests) :
    RunE env secretName configPath args =
      match env.CheckExistingToken config with
      | none =>
        ((processManifests env config manifests ⟨"", sessionCalls path files⟩).1,
          .returned (processManifests env config manifests ⟨"", sessionCalls path files⟩).2)
      | some _ =>
        match env.Login config with
        | some e => (⟨"", sessionCalls path files ++ [.login]⟩, .returned (some e))
        | none =>
          ((processManifests env config manifests
              ⟨"", sessionCalls path files ++ [.login]⟩).1,
            .returned (processManifests env config manifests
              ⟨"", sessionCalls path files ++ [.login]⟩).2) := by
  obtain ⟨h1, h2, h3, h4, h5, h6⟩ := h
  cases args with
  | nil => simp at h1
  | cons p rest =>
    simp only [List.head?_cons, Option.some.injEq] at h1
    subst h1
    have h3' : ¬ files.length < 1 := by omega
    cases ht : env.CheckExistingToken config with
    | none =>
      simp [RunE, h2, h3', h4, h5, h6, ht, RunState.log, sessionCalls]
    | some e0 =>
      cases hl : env.Login config with
      | none => simp [RunE, h2, h3', h4, h5, h6, ht, hl, RunState.log, sessionCalls]
      | some e => simp [RunE, h2, h3', h4, h5, h6, ht, hl, RunState.log, sessionCalls]

/-- Every run either leaves the loop, entered with nothing written and no call made for a
manifest, or ends before the loop with nothing written and no call made for a manifest. -/
theorem RunE_shape (args : List String) :
    (∃ config manifests s0, env.configNew = .ok config ∧ s0.out = "" ∧
      (∀ e ∈ s0.trace, e.perManifest = false) ∧
      (RunE env secretName configPath args).1 = (processManifests env config manifests s0).1) ∨
    ((RunE env secretName configPath args).1.out = "" ∧
      ∀ e ∈ (RunE env secretName configPath args).1.trace, e.perManifest = false) := by
  cases args with
  | nil => exact Or.inr (by simp [RunE])
  | cons path rest =>
    cases hl : env.listYamlFiles path with
    | mk files err =>
    by_cases hf : files.length < 1
    · exact Or.inr (by simp [RunE, hl, hf, RunState.log, Event.perManifest])
    cases err with
    | some e => exact Or.inr (by simp [RunE, hl, hf, RunState.log, Event.perManifest])
    | none =>
    cases hr : env.readFilesAsManifests files with
    | mk manifests errs =>
    by_cases he : errs.length = 0
    swap
    · exact Or.inr (by simp [RunE, hl, hf, hr, he, RunState.log, Event.perManifest])
    cases hs : env.setConfig secretName configPath with
    | some e => exact Or.inr (by simp [RunE, hl, hf, hr, he, hs, RunState.log, Event.perManifest])
    | none =>
    cases hc : env.configNew with
    | error e =>
      exact Or.inr (by simp [RunE, hl, hf, hr, he, hs, hc, RunState.log, Event.perManifest])
    | ok config =>
    cases ht : env.CheckExistingToken config with
    | none =>
      refine Or.inl ⟨config, manifests, ⟨"", sessionCalls path files⟩, rfl, rfl, ?_, ?_⟩
      · simp [sessionCalls, Event.perManifest]
      · simp [RunE, hl, hf, hr, he, hs, hc, ht, RunState.log, sessionCalls]
    | some e0 =>
      cases hg : env.Login config with
      | some e =>
        exact Or.inr (by
          simp [RunE, hl, hf, hr, he, hs, hc, ht, hg, RunState.log, Event.perManifest])
      | none =>
        refine Or.inl ⟨config, manifests, ⟨"", sessionCalls path files ++ [.login]⟩,
          rfl, rfl, ?_, ?_⟩
        · simp [sessionCalls, Event.perManifest]
        · simp [RunE, hl, hf, hr, he, hs, hc, ht, hg, RunState.log, sessionCalls]

end Run

section RunFacts

variable {Config Tmpl : Type} (env : Env Config Tmpl) (secretName configPath : String)

/-- What holds of the text and of the trace of every run. -/
theorem RunE_inv (args : List String) :
    (RunE env secretName configPath args).1.out
      = concat (writes (RunE env secretName configPath args).1.trace) ∧
    WriteGuarded (RunE env secretName configPath args).1.trace ∧
    (∀ m text, Event.write m text ∈ (RunE env secretName configPath args).1.trace →
      ∃ config output, env.configNew = .ok config ∧ text = output ++ "---\n" ∧
        m.length ≠ 0 ∧ Succeeds env config m output) ∧
    (∀ m, Event.toYAML m ∈ (RunE env secretName configPath args).1.trace →
      ∃ config t, env.configNew = .ok config ∧ env.NewTemplate m config = .ok t ∧
        (env.Replace t).2 = none) ∧
    (∀ m, Event.newTemplate m ∈ (RunE env secretName configPath args).1.trace →
      m.length ≠ 0) := by
  rcases RunE_shape env secretName configPath args with
    ⟨config, manifests, s0, hc, hout, hno, heq⟩ | ⟨hout, hno⟩
  · obtain ⟨h1, h2, h3, h4, h5⟩ := processManifests_loopInv env config manifests s0
      (loopInv_of_not_perManifest env config s0 hout hno)
    rw [heq]
    refine ⟨h1, h2, ?_, ?_, h5⟩
    · intro m text hmem
      obtain ⟨output, g1, g2, g3⟩ := h3 m text hmem
      exact ⟨config, output, hc, g1, g2, g3⟩
    · intro m hmem
      obtain ⟨t, g1, g2⟩ := h4 m hmem
      exact ⟨config, t, hc, g1, g2⟩
  · have hw := writes_of_not_perManifest _ hno
    refine ⟨by rw [hw, hout]; rfl, writeGuarded_of_writes_nil _ hw, ?_, ?_, ?_⟩
    · intro m text hmem
      have := hno _ hmem
      simp [Event.perManifest] at this
    · intro m hmem
      have := hno _ hmem
      simp [Event.perManifest] at this
    · intro m hmem
      have := hno _ hmem
      simp [Event.perManifest] at this

/-- The loop makes no login call. -/
theorem processManifests_login (config : Config) (ms : List GoMap) (s : RunState) :
    Event.login ∈ (processManifests env config ms s).1.trace ↔ Event.login ∈ s.trace := by
  refine processManifests_invariant env config
    (fun s' => Event.login ∈ s'.trace ↔ Event.login ∈ s.trace) ?_ ?_ ms s Iff.rfl
  · intro s' m output _ _ h
    simp [emitted, h]
  · intro s' m e calls _ hf h
    rcases hf with ⟨hc, _⟩ | ⟨hc, _⟩ | ⟨hc, _⟩ <;> subst hc <;> simp [h]

/-- The loop over manifests that all succeed, from a state with nothing written. -/
theorem processManifests_all (config : Config) (yaml : GoMap → String)
    (manifests : List GoMap) (calls : List Event)
    (hall : ∀ m ∈ manifests, m.length ≠ 0 → Succeeds env config m (yaml m)) :
    (processManifests env config manifests ⟨"", calls⟩).1.out = rendered yaml manifests ∧
    (processManifests env config manifests ⟨"", calls⟩).2 = none := by
  obtain ⟨tr, h⟩ := processManifests_succeeding env config yaml manifests [] hall ⟨"", calls⟩
  rw [List.append_nil] at h
  rw [h]
  simp [processManifests]

/-- A prefix of manifests that all succeed: the exact state in which the loop goes on with the
rest. -/
theorem processManifests_succeeding_exact (config : Config) (yaml : GoMap → String)
    (pre rest : List GoMap)
    (hpre : ∀ m ∈ pre, m.length ≠ 0 → Succeeds env config m (yaml m)) :
    ∀ s : RunState,
      processManifests env config (pre ++ rest) s
        = processManifests env config rest
            ⟨s.out ++ rendered yaml pre, s.trace ++ emittedAll yaml pre⟩ := by
  induction pre with
  | nil =>
    intro s
    simp [rendered, concat, emittedAll]
  | cons m pre ih =>
    intro s
    have hpre' : ∀ m' ∈ pre, m'.length ≠ 0 → Succeeds env config m' (yaml m') :=
      fun m' hm' => hpre m' (List.mem_cons_of_mem _ hm')
    by_cases h : m.length = 0
    · rw [List.cons_append, processManifests_skip env config m _ s h, ih hpre' s]
      simp [rendered, emittedAll, h]
    · rw [List.cons_append,
        processManifests_emit env config m _ s (yaml m) h (hpre m (List.mem_cons_self _ _) h),
        ih hpre']
      simp [rendered, emittedAll, h, concat, String.append_assoc]

/-- The loop over manifests of which the first that does not succeed fails with `e` after the
calls `calls`: the loop is left there, in exactly this state. -/
theorem processManifests_stops_at_failure (config : Config) (yaml : GoMap → String)
    (pre post : List GoMap) (bad : GoMap) (e : GoError) (calls : List Event) (s : RunState)
    (hpre : ∀ m ∈ pre, m.length ≠ 0 → Succeeds env config m (yaml m))
    (hbad : bad.length ≠ 0) (hfail : FailsAfter env config bad e calls) :
    processManifests env config (pre ++ bad :: post) s
      = (⟨s.out ++ rendered yaml pre, s.trace ++ emittedAll yaml pre ++ calls⟩, some e) := by
  rw [processManifests_succeeding_exact env config yaml pre (bad :: post) hpre s,
    processManifests_fail env config bad post _ e calls hbad hfail]

end RunFacts

/-! ## Lemmas on `secretReplacement` -/

/-- Every resolved value that is not an `int`, a `bool` or a `string` falls through the type
switch: the result is the nil byte slice, with the errors of `genericReplacement`. -/
theorem secretReplacement_fallthrough (g : Replacer) (key value : String) (vaultData : GoMap)
    (res : Value) (errs : List GoError) (h : g key value vaultData = (res, errs))
    (hn : ∀ n, res ≠ .int n) (hb : ∀ b, res ≠ .bool b) (hs : ∀ s, res ≠ .str s) :
    secretReplacement g key value vaultData = (.bytes none, errs) := by
  cases res with
  | int n => exact absurd rfl (hn n)
  | bool b => exact absurd rfl (hb b)
  | str s => exact absurd rfl (hs s)
  | _ => simp [secretReplacement, h]

/-! ## Claims on `src/pkg/kube/secret.go` -/

/-- C1: when `genericReplacement` resolves the value to an int `n`, `secretReplacement` returns
the bytes of the decimal text `strconv.Itoa n`; when it resolves to a bool, the bytes of `true`
or `false`; when it resolves to a string `s`, exactly the bytes of `s`; and in each case the
error list is the one `genericReplacement` returned, unchanged. -/
theorem secretReplacement_encodes (genericReplacement : Replacer) (key value : String)
    (vaultData : GoMap) (res : Value) (errs : List GoError)
    (h : genericReplacement key value vaultData = (res, errs)) :
    (∀ n, res = .int n →
      secretReplacement genericReplacement key value vaultData
        = (.bytes (some (bytesOf (Itoa n))), errs)) ∧
    (res = .bool true →
      secretReplacement genericReplacement key value vaultData
        = (.bytes (some (bytesOf "true")), errs)) ∧
    (res = .bool false →
      secretReplacement genericReplacement key value vaultData
        = (.bytes (some (bytesOf "false")), errs)) ∧
    (∀ s, res = .str s →
      secretReplacement genericReplacement key value vaultData
        = (.bytes (some (bytesOf s)), errs)) ∧
    (secretReplacement genericReplacement key value vaultData).2 = errs := by
  refine ⟨?_, ?_, ?_, ?_, ?_⟩
  · intro n hn
    subst hn
    simp [secretReplacement, h]
  · intro hb
    subst hb
    simp [secretReplacement, h, FormatBool]
  · intro hb
    subst hb
    simp [secretReplacement, h, FormatBool]
  · intro s hs
    subst hs
    simp [secretReplacement, h]
  · simp [secretReplacement, h]

/-- Witness of C1: the value `<enabled>` resolving to the boolean `true` yields the text
`true`, whose bytes are 116, 114, 117, 101; and the value `<offset>` resolving to the int -42
yields the text `-42`, whose bytes are 45, 52, 50. -/
theorem secretReplacement_encodes_witness :
    wholeValueReplacement "flag" "<enabled>" [("enabled", .bool true)] = (.bool true, []) ∧
    secretReplacement wholeValueReplacement "flag" "<enabled>" [("enabled", .bool true)]
      = (.bytes (some [116, 114, 117, 101]), []) ∧
    secretReplacement wholeValueReplacement "shift" "<offset>" [("offset", .int (-42))]
      = (.bytes (some [45, 52, 50]), []) :=
  ⟨rfl,
   (secretReplacement_encodes wholeValueReplacement "flag" "<enabled>"
    [("enabled", .bool true)] (.bool true) [] rfl).2.1 rfl,
   ((secretReplacement_encodes wholeValueReplacement "shift" "<offset>"
    [("offset", .int (-42))] (.int (-42)) [] rfl).1 (-42) rfl).trans rfl⟩

/-- C2, evaluated on the code: a number that is not a Go `int` (here the `float64` 3, whose
bits are `0x4008000000000000`, and the `int64` 3), resolved without error, is turned into the
nil byte slice and no error is reported. -/
theorem secretReplacement_other_number_gives_nil :
    wholeValueReplacement "replicas" "<replicas>" [("replicas", .float64 0x4008000000000000)]
      = (.float64 0x4008000000000000, []) ∧
    secretReplacement wholeValueReplacement "replicas" "<replicas>"
      [("replicas", .float64 0x4008000000000000)] = (.bytes none, []) ∧
    wholeValueReplacement "replicas" "<replicas>" [("replicas", .int64 3)]
      = (.int64 3, []) ∧
    secretReplacement wholeValueReplacement "replicas" "<replicas>"
      [("replicas", .int64 3)] = (.bytes none, []) :=
  ⟨rfl, rfl, rfl, rfl⟩

/-- C3 fails as stated: on `brokenSecret`, whose `metadata` and `data` are both maps, the walk
of `metadata` records an error and `Replace` returns at once; the `data` subtree is not walked
(its entry is not the walked one, which differs) and the error that the walk of `data` would
record is not among the errors aggregated. -/
theorem Replace_aborts_after_metadata :
    asMap (mapGet brokenSecret.templateData "metadata") = some [("name", .str "<missing>")] ∧
    asMap (mapGet brokenSecret.templateData "data")
      = some [("user", .str "<username>"), ("password", .str "<absent>")] ∧
    (replaceInner brokenSecret.vaultData [("user", .str "<username>"), ("password", .str "<absent>")]
        (secretReplacement wholeValueReplacement)).2
      = [⟨"missing Vault value for placeholder absent in string password: <absent>"⟩] ∧
    (Replace replaceInner wholeValueReplacement brokenSecret).1.replacementErrors
      = [⟨"missing Vault value for placeholder missing in string name: <missing>"⟩] ∧
    (Replace replaceInner wholeValueReplacement brokenSecret).2
      = some ⟨"Replace: could not replace all placeholders in SecretTemplate metadata: "
          ++ "[missing Vault value for placeholder missing in string name: <missing>]"⟩ ∧
    mapGet (Replace replaceInner wholeValueReplacement brokenSecret).1.templateData "data"
      = some (.map [("user", .str "<username>"), ("password", .str "<absent>")]) ∧
    mapGet (Replace replaceInner wholeValueReplacement brokenSecret).1.templateData "data"
      ≠ some (.map (replaceInner brokenSecret.vaultData
          [("user", .str "<username>"), ("password", .str "<absent>")]
          (secretReplacement wholeValueReplacement)).1) := by
  refine ⟨rfl, rfl, rfl, rfl, rfl, rfl, ?_⟩
  have h1 : mapGet (Replace replaceInner wholeValueReplacement brokenSecret).1.templateData "data"
      = some (.map [("user", .str "<username>"), ("password", .str "<absent>")]) := rfl
  have h2 : (replaceInner brokenSecret.vaultData
      [("user", .str "<username>"), ("password", .str "<absent>")]
      (secretReplacement wholeValueReplacement)).1
      = [("user", .bytes (some [97, 100, 109, 105, 110])),
         ("password", .bytes (some [60, 97, 98, 115, 101, 110, 116, 62]))] := rfl
  rw [h1, h2]
  simp

/-- C3, amended: for every template whose `metadata` and `data` are both maps, `Replace` walks
`metadata` first; if the error list is not empty after that walk it returns at once an error
that aggregates the errors recorded so far and leaves `data` unwalked; otherwise it walks
`data` as well and returns an error that aggregates the errors of that walk, or nil when there
are none. -/
theorem Replace_walks_metadata_then_data (walk : Walker) (g : Replacer) (d : Resource)
    (metadata data : GoMap)
    (hm : asMap (mapGet d.templateData "metadata") = some metadata)
    (hd : asMap (mapGet d.templateData "data") = some data) :
    (d.replacementErrors ++ (walk d.vaultData metadata g).2 ≠ [] →
      Replace walk g d =
        ({ templateData := mapSet d.templateData "metadata" (.map (walk d.vaultData metadata g).1),
           replacementErrors := d.replacementErrors ++ (walk d.vaultData metadata g).2,
           vaultData := d.vaultData },
         some ⟨"Replace: could not replace all placeholders in SecretTemplate metadata: "
           ++ fmtErrors (d.replacementErrors ++ (walk d.vaultData metadata g).2)⟩)) ∧
    (d.replacementErrors ++ (walk d.vaultData metadata g).2 = [] →
      Replace walk g d =
        ({ templateData :=
             mapSet (mapSet d.templateData "metadata" (.map (walk d.vaultData metadata g).1))
               "data" (.map (walk d.vaultData data (secretReplacement g)).1),
           replacementErrors := (walk d.vaultData data (secretReplacement g)).2,
           vaultData := d.vaultData },
         if (walk d.vaultData data (secretReplacement g)).2 = [] then none
         else some ⟨"Replace: could not replace all placeholders in SecretTemplate data: "
           ++ fmtErrors (walk d.vaultData data (secretReplacement g)).2⟩)) := by
  constructor
  · intro h
    rw [Replace_of_map walk g d metadata hm, if_neg h]
    rfl
  · intro h
    have hd' : asMap (mapGet (walkField walk d "metadata" metadata g).templateData "data")
        = some data := by
      rw [walkField_metadata_data]; exact hd
    rw [Replace_of_map walk g d metadata hm, if_pos h,
      replaceData_of_map walk g _ data hd']
    simp only [walkField_replacementErrors, walkField_vaultData, h, List.nil_append]
    refine Prod.ext (Resource.ext ?_ ?_ ?_) rfl
    · rfl
    · simp only [walkField_replacementErrors, walkField_vaultData, h, List.nil_append]
    · rfl

/-- Witness of the amended C3: on `goodSecret` both subtrees are walked and nil is returned;
the `data` leaf `<enabled>` has become the bytes of `true`. -/
theorem Replace_walks_metadata_then_data_witness :
    Replace replaceInner wholeValueReplacement goodSecret =
      ({ templateData :=
           [("kind", .str "Secret"),
            ("metadata", .map [("name", .str "admin")]),
            ("data", .map [("flag", .bytes (some [116, 114, 117, 101]))])],
         replacementErrors := [],
         vaultData := goodSecret.vaultData }, none) :=
  ((Replace_walks_metadata_then_data replaceInner wholeValueReplacement goodSecret
    [("name", .str "<username>")] [("flag", .str "<enabled>")] rfl rfl).2 rfl).trans rfl

/-- C6: for every template whose `replacementErrors` list is empty on entry, as the one built
by `NewSecretTemplate` is, `Replace` returns a non-nil error if and only if the walk of
`metadata` or the walk of `data` records at least one replacement error, which is also if and
only if the list is not empty afterwards; with no recorded error it returns nil. -/
theorem Replace_error_iff_recorded (walk : Walker) (g : Replacer) (d : Resource)
    (h : d.replacementErrors = []) :
    ((Replace walk g d).2 ≠ none ↔
      ((∃ m, asMap (mapGet d.templateData "metadata") = some m ∧ (walk d.vaultData m g).2 ≠ []) ∨
       (∃ m, asMap (mapGet d.templateData "data") = some m ∧
          (walk d.vaultData m (secretReplacement g)).2 ≠ []))) ∧
    ((Replace walk g d).2 ≠ none ↔ (Replace walk g d).1.replacementErrors ≠ []) ∧
    ((Replace walk g d).1.replacementErrors = [] → (Replace walk g d).2 = none) ∧
    (∀ (getenv : String → String) (GetSecrets : String → Except GoError GoMap)
      (template : GoMap) (r : Resource),
      NewSecretTemplate getenv GetSecrets template = .ok r → r.replacementErrors = []) := by
  have key : ((Replace walk g d).2 ≠ none ↔
      ((∃ m, asMap (mapGet d.templateData "metadata") = some m ∧ (walk d.vaultData m g).2 ≠ []) ∨
       (∃ m, asMap (mapGet d.templateData "data") = some m ∧
          (walk d.vaultData m (secretReplacement g)).2 ≠ []))) ∧
      ((Replace walk g d).2 ≠ none ↔ (Replace walk g d).1.replacementErrors ≠ []) := by
    rcases asMap_cases (mapGet d.templateData "metadata") with hm | ⟨metadata, hm⟩
    · rw [Replace_of_not_map walk g d hm]
      rcases asMap_cases (mapGet d.templateData "data") with hd | ⟨data, hd⟩
      · rw [replaceData_of_not_map walk g d hd]
        simp [hm, hd, h]
      · rw [replaceData_of_map walk g d data hd]
        by_cases he : (walk d.vaultData data (secretReplacement g)).2 = []
        · simp [hm, hd, h, he, walkField_replacementErrors]
        · simp [hm, hd, h, he, walkField_replacementErrors]
    · rw [Replace_of_map walk g d metadata hm]
      by_cases hme : (walk d.vaultData metadata g).2 = []
      · have hd0 := walkField_metadata_data walk g d metadata
        rcases asMap_cases (mapGet d.templateData "data") with hd | ⟨data, hd⟩
        · have hd' : asMap (mapGet (walkField walk d "metadata" metadata g).templateData "data")
              = none := by rw [hd0]; exact hd
          rw [h, List.nil_append, if_pos hme, replaceData_of_not_map walk g _ hd']
          simp [hm, hd, h, hme, walkField_replacementErrors]
        · have hd' : asMap (mapGet (walkField walk d "metadata" metadata g).templateData "data")
              = some data := by rw [hd0]; exact hd
          rw [h, List.nil_append, if_pos hme, replaceData_of_map walk g _ data hd']
          by_cases he : (walk d.vaultData data (secretReplacement g)).2 = []
          · simp [hm, hd, h, hme, he, walkField_replacementErrors, walkField_vaultData]
          · simp [hm, hd, h, hme, he, walkField_replacementErrors, walkField_vaultData]
      · rw [h, List.nil_append, if_neg hme]
        simp [hm, h, hme, walkField_replacementErrors]
  refine ⟨key.1, key.2, ?_, ?_⟩
  · intro h0
    by_contra hne
    exact (key.2.1 hne) h0
  · intro getenv GetSecrets template r hr
    unfold NewSecretTemplate at hr
    cases hs : GetSecrets (getenv "VAULT_PATH_PREFIX") with
    | error e => simp [hs] at hr
    | ok data =>
      simp only [hs, Except.ok.injEq] at hr
      rw [← hr]

/-- Witness of C6: `brokenSecret` has an empty error list on entry and its `metadata` walk
records an error, so `Replace` returns a non-nil error. -/
theorem Replace_error_iff_recorded_witness :
    brokenSecret.replacementErrors = [] ∧
    (Replace replaceInner wholeValueReplacement brokenSecret).2 ≠ none :=
  ⟨rfl, (Replace_error_iff_recorded replaceInner wholeValueReplacement brokenSecret rfl).1.2
    (Or.inl ⟨[("name", .str "<missing>")], rfl, by
      have h : (replaceInner brokenSecret.vaultData [("name", .str "<missing>")]
          wholeValueReplacement).2
          = [⟨"missing Vault value for placeholder missing in string name: <missing>"⟩] := rfl
      rw [h]; simp⟩)⟩

/-- C7: `Replace` applies the walker only to the top-level `metadata` subtree, with
`genericReplacement`, and to the top-level `data` subtree, with `secretReplacement`, each only
when it is a string-keyed map: the stored Vault data and every other top-level entry of the
template are unchanged; an entry `metadata` or `data` that is not a map is unchanged; a
`metadata` map becomes its walk with `genericReplacement`; a `data` map becomes its walk with
`secretReplacement` whenever `metadata` is not a map or the error list is empty after the walk
of `metadata`, and is left as it was when the error list is not empty after the walk of
`metadata`; and when neither is a map `Replace` changes nothing and returns nil. -/
theorem Replace_scope (walk : Walker) (g : Replacer) (d : Resource) :
    (Replace walk g d).1.vaultData = d.vaultData ∧
    (∀ k, k ≠ "metadata" → k ≠ "data" →
      mapGet (Replace walk g d).1.templateData k = mapGet d.templateData k) ∧
    (asMap (mapGet d.templateData "metadata") = none →
      mapGet (Replace walk g d).1.templateData "metadata" = mapGet d.templateData "metadata") ∧
    (asMap (mapGet d.templateData "data") = none →
      mapGet (Replace walk g d).1.templateData "data" = mapGet d.templateData "data") ∧
    (∀ m, asMap (mapGet d.templateData "metadata") = some m →
      mapGet (Replace walk g d).1.templateData "metadata"
        = some (.map (walk d.vaultData m g).1)) ∧
    (∀ m, asMap (mapGet d.templateData "data") = some m →
      (asMap (mapGet d.templateData "metadata") = none ∨
        ∃ mm, asMap (mapGet d.templateData "metadata") = some mm ∧
          d.replacementErrors ++ (walk d.vaultData mm g).2 = []) →
      mapGet (Replace walk g d).1.templateData "data"
        = some (.map (walk d.vaultData m (secretReplacement g)).1)) ∧
    (∀ mm, asMap (mapGet d.templateData "metadata") = some mm →
      d.replacementErrors ++ (walk d.vaultData mm g).2 ≠ [] →
      mapGet (Replace walk g d).1.templateData "data" = mapGet d.templateData "data") ∧
    (asMap (mapGet d.templateData "metadata") = none →
      asMap (mapGet d.templateData "data") = none → Replace walk g d = (d, none)) := by
  have hdm : ("data" : String) ≠ "metadata" := by decide
  have hmd : ("metadata" : String) ≠ "data" := by decide
  -- the second half, on any template
  have half : ∀ e : Resource,
      (replaceData walk g e).1.vaultData = e.vaultData ∧
      (∀ k, k ≠ "data" → mapGet (replaceData walk g e).1.templateData k = mapGet e.templateData k) ∧
      (asMap (mapGet e.templateData "data") = none → replaceData walk g e = (e, none)) ∧
      (∀ m, asMap (mapGet e.templateData "data") = some m →
        mapGet (replaceData walk g e).1.templateData "data"
          = some (.map (walk e.vaultData m (secretReplacement g)).1)) := by
    intro e
    rcases asMap_cases (mapGet e.templateData "data") with hd | ⟨data, hd⟩
    · rw [replaceData_of_not_map walk g e hd]
      simp [hd]
    · rw [replaceData_of_map walk g e data hd]
      refine ⟨rfl, ?_, ?_, ?_⟩
      · intro k hk
        exact mapGet_mapSet_ne _ _ _ _ hk
      · intro hn
        rw [hd] at hn
        cases hn
      · intro m hm
        rw [hd] at hm
        cases hm
        exact mapGet_mapSet_self _ _ _
  rcases asMap_cases (mapGet d.templateData "metadata") with hm | ⟨metadata, hm⟩
  · rw [Replace_of_not_map walk g d hm]
    obtain ⟨h1, h2, h3, h4⟩ := half d
    refine ⟨h1, ?_, ?_, ?_, ?_, ?_, ?_, ?_⟩
    · intro k _ hk
      exact h2 k hk
    · intro _
      exact h2 _ hmd
    · intro hd
      rw [h3 hd]
    · intro m hm'
      rw [hm] at hm'
      cases hm'
    · intro m hd _
      exact h4 m hd
    · intro mm hmm
      rw [hm] at hmm
      cases hmm
    · intro _ hd
      exact h3 hd
  · rw [Replace_of_map walk g d metadata hm]
    have hdata := walkField_metadata_data walk g d metadata
    by_cases he : d.replacementErrors ++ (walk d.vaultData metadata g).2 = []
    · rw [if_pos he]
      obtain ⟨h1, h2, h3, h4⟩ := half (walkField walk d "metadata" metadata g)
      refine ⟨h1, ?_, ?_, ?_, ?_, ?_, ?_, ?_⟩
      · intro k hk1 hk2
        rw [h2 k hk2, walkField_templateData]
        exact mapGet_mapSet_ne _ _ _ _ hk1
      · intro hn
        rw [hm] at hn
        cases hn
      · intro hd
        rw [h3 (by rw [hdata]; exact hd)]
        exact hdata
      · intro m hm'
        rw [hm] at hm'
        cases hm'
        rw [h2 _ hmd, walkField_templateData]
        exact mapGet_mapSet_self _ _ _
      · intro m hd _
        exact h4 m (by rw [hdata]; exact hd)
      · intro mm hmm hne
        rw [hm] at hmm
        cases hmm
        exact absurd he hne
      · intro hn
        rw [hm] at hn
        cases hn
    · rw [if_neg he]
      refine ⟨rfl, ?_, ?_, ?_, ?_, ?_, ?_, ?_⟩
      · intro k hk1 _
        exact mapGet_mapSet_ne _ _ _ _ hk1
      · intro hn
        rw [hm] at hn
        cases hn
      · intro _
        exact hdata
      · intro m hm'
        rw [hm] at hm'
        cases hm'
        exact mapGet_mapSet_self _ _ _
      · intro m _ hcond
        rcases hcond with hn | ⟨mm, hmm, hemp⟩
        · rw [hm] at hn
          cases hn
        · rw [hm] at hmm
          cases hmm
          exact absurd hemp he
      · intro mm _ _
        exact hdata
      · intro hn
        rw [hm] at hn
        cases hn

/-- Witness of C7: on `goodSecret` the entry `kind` is as it was before the call and, the walk
of `metadata` leaving no error, the `data` leaf `<enabled>` has become the bytes of `true`; on
`brokenSecret` the walk of `metadata` records an error and `data` is as it was. -/
theorem Replace_scope_witness :
    mapGet (Replace replaceInner wholeValueReplacement goodSecret).1.templateData "kind"
      = some (.str "Secret") ∧
    mapGet (Replace replaceInner wholeValueReplacement goodSecret).1.templateData "data"
      = some (.map [("flag", .bytes (some [116, 114, 117, 101]))]) ∧
    mapGet (Replace replaceInner wholeValueReplacement brokenSecret).1.templateData "data"
      = some (.map [("user", .str "<username>"), ("password", .str "<absent>")]) :=
  ⟨((Replace_scope replaceInner wholeValueReplacement goodSecret).2.1 "kind"
      (by decide) (by decide)).trans rfl,
   ((Replace_scope replaceInner wholeValueReplacement goodSecret).2.2.2.2.2.1
      [("flag", .str "<enabled>")] rfl
      (Or.inr ⟨[("name", .str "<username>")], rfl, rfl⟩)).trans rfl,
   ((Replace_scope replaceInner wholeValueReplacement brokenSecret).2.2.2.2.2.2.1
      [("name", .str "<missing>")] rfl
      (by
        have h : brokenSecret.replacementErrors ++
            (replaceInner brokenSecret.vaultData [("name", .str "<missing>")]
              wholeValueReplacement).2
            = [⟨"missing Vault value for placeholder missing in string name: <missing>"⟩] :=
          rfl
        rw [h]
        simp)).trans rfl⟩

/-! ## Claims on `src/cmd/generate.go` -/

/-- C4 fails as stated: in a batch of a manifest whose `Replace` fails followed by a manifest
for which the three steps succeed, `RunE` returns the error of the first; the second manifest
is not processed and its YAML is not written. -/
theorem RunE_aborts_batch :
    Fails (demoEnv (["a.yaml"], none) [brokenSecret.templateData, goodSecret.templateData]
        none none) () brokenSecret.templateData
      ⟨"Replace: could not replace all placeholders in SecretTemplate metadata: "
        ++ "[missing Vault value for placeholder missing in string name: <missing>]"⟩ ∧
    Succeeds (demoEnv (["a.yaml"], none) [brokenSecret.templateData, goodSecret.templateData]
        none none) () goodSecret.templateData "kind: Secret\n" ∧
    (RunE (demoEnv (["a.yaml"], none) [brokenSecret.templateData, goodSecret.templateData]
        none none) "" "" ["dir"]).1.out = "" ∧
    (RunE (demoEnv (["a.yaml"], none) [brokenSecret.templateData, goodSecret.templateData]
        none none) "" "" ["dir"]).1.trace
      = sessionCalls "dir" ["a.yaml"] ++
        [.newTemplate brokenSecret.templateData, .replace brokenSecret.templateData] ∧
    (∀ text, Event.write goodSecret.templateData text ∉
      (RunE (demoEnv (["a.yaml"], none) [brokenSecret.templateData, goodSecret.templateData]
        none none) "" "" ["dir"]).1.trace) := by
  refine ⟨⟨_, Or.inr (Or.inl ⟨rfl, brokenSecret, rfl, rfl⟩)⟩, ⟨goodSecret, rfl, rfl, rfl⟩,
    rfl, rfl, ?_⟩
  intro text hmem
  have htr : (RunE (demoEnv (["a.yaml"], none)
      [brokenSecret.templateData, goodSecret.templateData] none none) "" "" ["dir"]).1.trace
      = sessionCalls "dir" ["a.yaml"] ++
        [.newTemplate brokenSecret.templateData, .replace brokenSecret.templateData] := rfl
  rw [htr] at hmem
  simp [sessionCalls] at hmem

/-- C4, amended: the run is fail-fast over the batch. In a run that reaches the loop, if the
manifests before a non-empty manifest are empty or succeed and `NewTemplate`, `Replace` or
`ToYAML` fails for that manifest, `RunE` returns that error at once: the text written is the
YAML of the earlier non-empty manifests, each followed by the separator line, in input order;
the calls made are those of the session check, those for the earlier manifests and, last, those
for the failing manifest up to the step that failed, so that no call is made and nothing is
written for a later manifest; and nothing is written for the failing manifest. -/
theorem RunE_fails_fast {Config Tmpl : Type} (env : Env Config Tmpl)
    (secretName configPath : String) (args : List String) (path : String)
    (files : List String) (config : Config) (manifests : List GoMap) (yaml : GoMap → String)
    (pre post : List GoMap) (bad : GoMap) (e : GoError) (calls : List Event)
    (hreach : ReachesSessionCheck env secretName configPath args path files config manifests)
    (hsession : env.CheckExistingToken config = none ∨ env.Login config = none)
    (hsplit : manifests = pre ++ bad :: post)
    (hpre : ∀ m ∈ pre, m.length ≠ 0 → Succeeds env config m (yaml m))
    (hbad : bad.length ≠ 0) (hfail : FailsAfter env config bad e calls) :
    RunE env secretName configPath args
      = (⟨concat ((pre.filter (fun m => m.length ≠ 0)).map (fun m => yaml m ++ "---\n")),
          sessionTrace path files (env.CheckExistingToken config) ++ emittedAll yaml pre
            ++ calls⟩,
         .returned (some e)) ∧
    (calls = [.newTemplate bad] ∨ calls = [.newTemplate bad, .replace bad] ∨
      calls = [.newTemplate bad, .replace bad, .toYAML bad]) ∧
    (RunE env secretName configPath args).2 = .returned (some e) ∧
    (RunE env secretName configPath args).1.out
      = concat ((pre.filter (fun m => m.length ≠ 0)).map (fun m => yaml m ++ "---\n")) ∧
    (∀ text, Event.write bad text ∉ (RunE env secretName configPath args).1.trace) := by
  have hc : env.configNew = .ok config := hreach.2.2.2.2.2
  have hrun : RunE env secretName configPath args
      = (⟨concat ((pre.filter (fun m => m.length ≠ 0)).map (fun m => yaml m ++ "---\n")),
          sessionTrace path files (env.CheckExistingToken config) ++ emittedAll yaml pre
            ++ calls⟩,
         .returned (some e)) := by
    rw [RunE_of_reaches env secretName configPath args path files config manifests hreach]
    subst hsplit
    cases ht : env.CheckExistingToken config with
    | none =>
      simp [processManifests_stops_at_failure env config yaml pre post bad e calls _ hpre hbad
        hfail, rendered, sessionTrace]
    | some e0 =>
      have hl : env.Login config = none := by
        rcases hsession with h | h
        · rw [ht] at h; cases h
        · exact h
      simp [hl, processManifests_stops_at_failure env config yaml pre post bad e calls _ hpre
        hbad hfail, rendered, sessionTrace]
  refine ⟨hrun, ?_, ?_, ?_, ?_⟩
  · rcases hfail with ⟨h, _⟩ | ⟨h, _⟩ | ⟨h, _⟩
    · exact Or.inl h
    · exact Or.inr (Or.inl h)
    · exact Or.inr (Or.inr h)
  · rw [hrun]
  · rw [hrun]
  · intro text hmem
    obtain ⟨config', output, hc', _, _, hs⟩ :=
      (RunE_inv env secretName configPath args).2.2.1 bad text hmem
    rw [hc] at hc'
    cases hc'
    exact not_succeeds_of_fails env config bad output e calls hs hfail

/-- Witness of the amended C4: a good manifest, then a broken one, then a good one; the first
is written, the error of the second is returned, and the trace ends with the `Replace` call for
the second: no call is made for the third. -/
theorem RunE_fails_fast_witness :
    RunE (demoEnv (["a.yaml"], none)
        [goodSecret.templateData, brokenSecret.templateData, goodSecret.templateData]
        none none) "" "" ["dir"]
      = (⟨"kind: Secret\n---\n",
          sessionCalls "dir" ["a.yaml"] ++
            [.newTemplate goodSecret.templateData, .replace goodSecret.templateData,
             .toYAML goodSecret.templateData,
             .write goodSecret.templateData "kind: Secret\n---\n",
             .newTemplate brokenSecret.templateData, .replace brokenSecret.templateData]⟩,
         .returned (some
          ⟨"Replace: could not replace all placeholders in SecretTemplate metadata: "
            ++ "[missing Vault value for placeholder missing in string name: <missing>]"⟩)) :=
  (RunE_fails_fast (demoEnv (["a.yaml"], none)
      [goodSecret.templateData, brokenSecret.templateData, goodSecret.templateData] none none)
    "" "" ["dir"] "dir" ["a.yaml"] ()
    [goodSecret.templateData, brokenSecret.templateData, goodSecret.templateData]
    (fun _ => "kind: Secret\n") [goodSecret.templateData] [goodSecret.templateData]
    brokenSecret.templateData
    ⟨"Replace: could not replace all placeholders in SecretTemplate metadata: "
      ++ "[missing Vault value for placeholder missing in string name: <missing>]"⟩
    [.newTemplate brokenSecret.templateData, .replace brokenSecret.templateData]
    ⟨rfl, rfl, by decide, rfl, rfl, rfl⟩ (Or.inl rfl) rfl
    (by
      intro m hm _
      rw [List.mem_singleton] at hm
      subst hm
      exact ⟨goodSecret, rfl, rfl, rfl⟩)
    (by decide)
    (Or.inr (Or.inl ⟨rfl, brokenSecret, rfl, rfl⟩))).1.trans rfl

/-- C5: a document that fails produces no output. In every run the text written is the
concatenation of the writes made; every write comes right after the calls of `NewTemplate`,
`Replace` and `ToYAML` for the same manifest, and is made only for a manifest for which the
three have succeeded, its text being the `ToYAML` output followed by the separator line; if
`Replace` returns an error for a manifest, `ToYAML` is not called for it and nothing is written
for it; if `ToYAML` returns an error for it, nothing is written for it. -/
theorem RunE_writes_only_finished {Config Tmpl : Type} (env : Env Config Tmpl)
    (secretName configPath : String) (args : List String) :
    (RunE env secretName configPath args).1.out
      = concat (writes (RunE env secretName configPath args).1.trace) ∧
    (∀ before m text after,
      (RunE env secretName configPath args).1.trace = before ++ Event.write m text :: after →
      ∃ earlier, before = earlier ++ [Event.newTemplate m, Event.replace m, Event.toYAML m]) ∧
    (∀ m text, Event.write m text ∈ (RunE env secretName configPath args).1.trace →
      ∃ config t output, env.configNew = .ok config ∧ env.NewTemplate m config = .ok t ∧
        (env.Replace t).2 = none ∧ env.ToYAML (env.Replace t).1 = .ok output ∧
        text = output ++ "---\n") ∧
    (∀ config m t e, env.configNew = .ok config → env.NewTemplate m config = .ok t →
      (env.Replace t).2 = some e →
      Event.toYAML m ∉ (RunE env secretName configPath args).1.trace ∧
      ∀ text, Event.write m text ∉ (RunE env secretName configPath args).1.trace) ∧
    (∀ config m t e, env.configNew = .ok config → env.NewTemplate m config = .ok t →
      env.ToYAML (env.Replace t).1 = .error e →
      ∀ text, Event.write m text ∉ (RunE env secretName configPath args).1.trace) := by
  obtain ⟨h1, h2, h3, h4, _⟩ := RunE_inv env secretName configPath args
  refine ⟨h1, h2, ?_, ?_, ?_⟩
  · intro m text hmem
    obtain ⟨config, output, hc, ht, _, t, g1, g2, g3⟩ := h3 m text hmem
    exact ⟨config, t, output, hc, g1, g2, g3, ht⟩
  · intro config m t e hc hn hr
    constructor
    · intro hmem
      obtain ⟨config', t', hc', g1, g2⟩ := h4 m hmem
      rw [hc] at hc'
      cases hc'
      rw [hn] at g1
      cases g1
      rw [hr] at g2
      cases g2
    · intro text hmem
      obtain ⟨config', output, hc', _, _, t', g1, g2, _⟩ := h3 m text hmem
      rw [hc] at hc'
      cases hc'
      rw [hn] at g1
      cases g1
      rw [hr] at g2
      cases g2
  · intro config m t e hc hn hy text hmem
    obtain ⟨config', output, hc', _, _, t', g1, _, g3⟩ := h3 m text hmem
    rw [hc] at hc'
    cases hc'
    rw [hn] at g1
    cases g1
    rw [hy] at g3
    cases g3

/-- Witness of C5: in the batch of a good manifest followed by a broken one, `Replace` fails
for the broken one; `ToYAML` is not called for it and the text written is that of the good
manifest alone. -/
theorem RunE_writes_only_finished_witness :
    Event.toYAML brokenSecret.templateData ∉
      (RunE (demoEnv (["a.yaml"], none) [goodSecret.templateData, brokenSecret.templateData]
        none none) "" "" ["dir"]).1.trace ∧
    (RunE (demoEnv (["a.yaml"], none) [goodSecret.templateData, brokenSecret.templateData]
        none none) "" "" ["dir"]).1.out = "kind: Secret\n---\n" :=
  ⟨((RunE_writes_only_finished (demoEnv (["a.yaml"], none)
      [goodSecret.templateData, brokenSecret.templateData] none none) "" "" ["dir"]).2.2.2.1
      () brokenSecret.templateData brokenSecret
      ⟨"Replace: could not replace all placeholders in SecretTemplate metadata: "
        ++ "[missing Vault value for placeholder missing in string name: <missing>]"⟩
      rfl rfl rfl).1, rfl⟩

/-- C8: documents are emitted in input order. In a run that reaches the loop with a list of
manifests for which `NewTemplate`, `Replace` and `ToYAML` all succeed, `RunE` returns nil and
the text written is the concatenation, in the order of the list and over the non-empty
manifests only, of the `ToYAML` output of the manifest followed by the separator line; no
template is built for an empty manifest. -/
theorem RunE_emits_in_input_order {Config Tmpl : Type} (env : Env Config Tmpl)
    (secretName configPath : String) (args : List String) (path : String)
    (files : List String) (config : Config) (manifests : List GoMap) (yaml : GoMap → String)
    (hreach : ReachesSessionCheck env secretName configPath args path files config manifests)
    (hsession : env.CheckExistingToken config = none ∨ env.Login config = none)
    (hall : ∀ m ∈ manifests, m.length ≠ 0 → Succeeds env config m (yaml m)) :
    (RunE env secretName configPath args).1.out
      = concat ((manifests.filter (fun m => m.length ≠ 0)).map (fun m => yaml m ++ "---\n")) ∧
    (RunE env secretName configPath args).2 = .returned none ∧
    (∀ m, m.length = 0 →
      Event.newTemplate m ∉ (RunE env secretName configPath args).1.trace) := by
  refine ⟨?_, ?_, ?_⟩
  · rw [RunE_of_reaches env secretName configPath args path files config manifests hreach]
    cases ht : env.CheckExistingToken config with
    | none => simp [(processManifests_all env config yaml manifests _ hall).1, rendered]
    | some e0 =>
      have hl : env.Login config = none := by
        rcases hsession with h | h
        · rw [ht] at h; cases h
        · exact h
      simp [hl, (processManifests_all env config yaml manifests _ hall).1, rendered]
  · rw [RunE_of_reaches env secretName configPath args path files config manifests hreach]
    cases ht : env.CheckExistingToken config with
    | none => simp [(processManifests_all env config yaml manifests _ hall).2]
    | some e0 =>
      have hl : env.Login config = none := by
        rcases hsession with h | h
        · rw [ht] at h; cases h
        · exact h
      simp [hl, (processManifests_all env config yaml manifests _ hall).2]
  · intro m hm hmem
    exact (RunE_inv env secretName configPath args).2.2.2.2 m hmem hm

/-- Witness of C8: two good manifests with an empty one between them give two documents. -/
theorem RunE_emits_in_input_order_witness :
    (RunE (demoEnv (["a.yaml"], none) [goodSecret.templateData, [], goodSecret.templateData]
        none none) "" "" ["dir"]).1.out = "kind: Secret\n---\nkind: Secret\n---\n" ∧
    (RunE (demoEnv (["a.yaml"], none) [goodSecret.templateData, [], goodSecret.templateData]
        none none) "" "" ["dir"]).2 = .returned none := by
  have h := RunE_emits_in_input_order (demoEnv (["a.yaml"], none)
      [goodSecret.templateData, [], goodSecret.templateData] none none)
    "" "" ["dir"] "dir" ["a.yaml"] ()
    [goodSecret.templateData, [], goodSecret.templateData]
    (fun _ => "kind: Secret\n")
    ⟨rfl, rfl, by decide, rfl, rfl, rfl⟩ (Or.inl rfl)
    (by
      intro m hm hlen
      simp only [List.mem_cons, List.mem_singleton, List.not_mem_nil, or_false] at hm
      rcases hm with hm | hm | hm
      · subst hm; exact ⟨goodSecret, rfl, rfl, rfl⟩
      · subst hm; exact absurd rfl hlen
      · subst hm; exact ⟨goodSecret, rfl, rfl, rfl⟩)
  exact ⟨h.1.trans rfl, h.2.1⟩

/-- C9: authentication on demand. In every run that reaches the session check, `Login` is
called if and only if `CheckExistingToken` returns an error; and when `Login` is called and
fails, `RunE` returns that error with no manifest processed and nothing written. -/
theorem RunE_login_on_demand {Config Tmpl : Type} (env : Env Config Tmpl)
    (secretName configPath : String) (args : List String) (path : String)
    (files : List String) (config : Config) (manifests : List GoMap)
    (hreach : ReachesSessionCheck env secretName configPath args path files config manifests) :
    (Event.login ∈ (RunE env secretName configPath args).1.trace ↔
      env.CheckExistingToken config ≠ none) ∧
    (∀ e, env.CheckExistingToken config ≠ none → env.Login config = some e →
      RunE env secretName configPath args
        = (⟨"", sessionCalls path files ++ [.login]⟩, .returned (some e))) := by
  rw [RunE_of_reaches env secretName configPath args path files config manifests hreach]
  cases ht : env.CheckExistingToken config with
  | none =>
    simp [processManifests_login, sessionCalls]
  | some e0 =>
    cases hl : env.Login config with
    | none => simp [processManifests_login, sessionCalls]
    | some e => simp [sessionCalls]

/-- Witness of C9: the token check fails and so does the login; the run ends with the login
error, nothing written and no manifest processed. -/
theorem RunE_login_on_demand_witness :
    RunE (demoEnv (["a.yaml"], none) [goodSecret.templateData]
        (some ⟨"token expired"⟩) (some ⟨"login refused"⟩)) "" "" ["dir"]
      = (⟨"", sessionCalls "dir" ["a.yaml"] ++ [.login]⟩,
          .returned (some ⟨"login refused"⟩)) :=
  (RunE_login_on_demand (demoEnv (["a.yaml"], none) [goodSecret.templateData]
      (some ⟨"token expired"⟩) (some ⟨"login refused"⟩)) "" "" ["dir"] "dir" ["a.yaml"] ()
      [goodSecret.templateData] ⟨rfl, rfl, by decide, rfl, rfl, rfl⟩).2
    ⟨"login refused"⟩ (by simp [demoEnv]) rfl

/-- C10: the empty-result check precedes the error check on `listYamlFiles`. When the listing
gives no file together with an error, `RunE` returns the error `no YAML files were found in`
followed by the path, not the listing error; the listing error is returned when at least one
file was listed. -/
theorem RunE_empty_listing_first {Config Tmpl : Type} (env : Env Config Tmpl)
    (secretName configPath : String) (path : String) (rest : List String)
    (files : List String) (err : GoError)
    (h : env.listYamlFiles path = (files, some err)) :
    (files.length < 1 →
      RunE env secretName configPath (path :: rest)
        = (⟨"", [.listYamlFiles path]⟩,
            .returned (some ⟨"no YAML files were found in " ++ path⟩))) ∧
    (1 ≤ files.length →
      RunE env secretName configPath (path :: rest)
        = (⟨"", [.listYamlFiles path]⟩, .returned (some err))) := by
  constructor
  · intro hf
    simp [RunE, h, hf, RunState.log]
  · intro hf
    have hf' : ¬ files.length < 1 := by omega
    simp [RunE, h, hf', RunState.log]

/-- Witness of C10: the listing gives no file and the error `permission denied`; the run
returns `no YAML files were found in dir`. -/
theorem RunE_empty_listing_first_witness :
    RunE (demoEnv ([], some ⟨"permission denied"⟩) [] none none) "" "" ["dir"]
      = (⟨"", [.listYamlFiles "dir"]⟩,
          .returned (some ⟨"no YAML files were found in dir"⟩)) :=
  ((RunE_empty_listing_first (demoEnv ([], some ⟨"permission denied"⟩) [] none none) "" ""
      "dir" [] [] ⟨"permission denied"⟩ rfl).1 (by decide)).trans rfl

end GithubMove
